import Mathlib

/-!
Verification of the recurring-calendar-period engine of `src/src/times.h`
(types `date_duration_t`, `date_specifier_t`, `date_range_t`,
`date_specifier_or_range_t`, `date_interval_t`).

Dates are embedded as year/month/day triples over `Int` with the
lexicographic order, matching `boost::gregorian::date` value semantics.
Day-level arithmetic is the iterated calendar successor/predecessor;
month- and year-level arithmetic follows boost's month functor with its
snap-to-end-of-month rule (the last day of a month maps to the last day
of the target month, and an out-of-range day is clamped).

Functions whose bodies live in `times.cc` (not part of the provided
sources) are modelled from the specification; each such definition says
so in its doc comment.
-/

namespace LedgerTimes

/-- A Gregorian calendar date, the embedding of `boost::gregorian::date`
(`date_t`, src/src/times.h:61). -/
structure Date where
  year : Int
  month : Int
  day : Int
deriving DecidableEq

/-- Chronological (lexicographic) order on dates, the embedding of
`boost::gregorian::date` comparison. -/
def Date.lt (a b : Date) : Prop :=
  a.year < b.year ∨
    (a.year = b.year ∧
      (a.month < b.month ∨ (a.month = b.month ∧ a.day < b.day)))

instance instLTDate : LT Date := ⟨Date.lt⟩

instance Date.decLt (a b : Date) : Decidable (a < b) := by
  unfold LT.lt instLTDate Date.lt
  exact inferInstance

/-- Chronological order, non-strict. -/
def Date.le (a b : Date) : Prop := a < b ∨ a = b

instance instLEDate : LE Date := ⟨Date.le⟩

instance Date.decLe (a b : Date) : Decidable (a ≤ b) := by
  unfold LE.le instLEDate Date.le
  exact inferInstance

theorem Date.lt_def (a b : Date) :
    (a < b) = (a.year < b.year ∨
      (a.year = b.year ∧
        (a.month < b.month ∨ (a.month = b.month ∧ a.day < b.day)))) := rfl

theorem Date.le_def (a b : Date) : (a ≤ b) = (a < b ∨ a = b) := rfl

theorem Date.lt_trans {a b c : Date} (h1 : a < b) (h2 : b < c) : a < c := by
  rcases a with ⟨ya, ma, da⟩
  rcases b with ⟨yb, mb, db⟩
  rcases c with ⟨yc, mc, dc⟩
  simp only [Date.lt_def] at h1 h2 ⊢
  omega

theorem Date.lt_of_le_of_lt {a b c : Date} (h1 : a ≤ b) (h2 : b < c) : a < c := by
  rcases h1 with h | rfl
  · exact Date.lt_trans h h2
  · exact h2

theorem Date.lt_of_lt_of_le {a b c : Date} (h1 : a < b) (h2 : b ≤ c) : a < c := by
  rcases h2 with h | rfl
  · exact Date.lt_trans h1 h
  · exact h1

theorem Date.le_of_lt {a b : Date} (h : a < b) : a ≤ b := Or.inl h

theorem Date.le_refl (a : Date) : a ≤ a := Or.inr rfl

theorem Date.le_trans {a b c : Date} (h1 : a ≤ b) (h2 : b ≤ c) : a ≤ c := by
  rcases h1 with h1 | rfl
  · exact Date.le_of_lt (Date.lt_of_lt_of_le h1 h2)
  · exact h2

/-- Gregorian leap-year rule, as provided by the boost calendar
primitives the header delegates to. -/
def Date.isLeap (y : Int) : Bool :=
  y % 4 == 0 && (y % 100 != 0 || y % 400 == 0)

/-- Length of a Gregorian month. -/
def Date.daysInMonth (y m : Int) : Int :=
  if m = 2 then (if Date.isLeap y then 29 else 28)
  else if m = 4 ∨ m = 6 ∨ m = 9 ∨ m = 11 then 30
  else 31

theorem Date.daysInMonth_pos (y m : Int) : 1 ≤ Date.daysInMonth y m := by
  unfold Date.daysInMonth
  split_ifs <;> omega

theorem Date.daysInMonth_le (y m : Int) : Date.daysInMonth y m ≤ 31 := by
  unfold Date.daysInMonth
  split_ifs <;> omega

theorem Date.daysInMonth_twelve (y : Int) : Date.daysInMonth y 12 = 31 := by
  unfold Date.daysInMonth
  norm_num

/-- A date is valid when its month and day lie in calendar range. -/
def Date.Valid (d : Date) : Prop :=
  1 ≤ d.month ∧ d.month ≤ 12 ∧ 1 ≤ d.day ∧ d.day ≤ Date.daysInMonth d.year d.month

theorem Date.valid_def (d : Date) :
    d.Valid ↔ (1 ≤ d.month ∧ d.month ≤ 12 ∧ 1 ≤ d.day ∧
      d.day ≤ Date.daysInMonth d.year d.month) := Iff.rfl

instance Date.decValid (d : Date) : Decidable d.Valid := by
  unfold Date.Valid
  exact inferInstance

/-- The next calendar day. -/
def Date.succ (d : Date) : Date :=
  if d.day < Date.daysInMonth d.year d.month then ⟨d.year, d.month, d.day + 1⟩
  else if d.month < 12 then ⟨d.year, d.month + 1, 1⟩
  else ⟨d.year + 1, 1, 1⟩

/-- The previous calendar day. -/
def Date.pred (d : Date) : Date :=
  if 1 < d.day then ⟨d.year, d.month, d.day - 1⟩
  else if 1 < d.month then ⟨d.year, d.month - 1, Date.daysInMonth d.year (d.month - 1)⟩
  else ⟨d.year - 1, 12, 31⟩

/-- Iterated successor: advance `n` calendar days. -/
def Date.succIter : Nat → Date → Date
  | 0, d => d
  | n + 1, d => Date.succ (Date.succIter n d)

/-- Iterated predecessor: go back `n` calendar days. -/
def Date.predIter : Nat → Date → Date
  | 0, d => d
  | n + 1, d => Date.predIter n (Date.pred d)

theorem Date.lt_succ (d : Date) : d < d.succ := by
  rcases d with ⟨y, m, dd⟩
  simp only [Date.succ]
  split_ifs <;> simp only [Date.lt_def, true_and, and_true] <;> omega

theorem Date.pred_lt (d : Date) : d.pred < d := by
  rcases d with ⟨y, m, dd⟩
  simp only [Date.pred]
  split_ifs <;> simp only [Date.lt_def, true_and, and_true] <;> omega

theorem Date.le_succIter (n : Nat) (d : Date) : d ≤ Date.succIter n d := by
  induction n with
  | zero => exact Date.le_refl d
  | succ k ih =>
      exact Date.le_trans ih (Date.le_of_lt (Date.lt_succ (Date.succIter k d)))

theorem Date.lt_succIter {n : Nat} (hn : 0 < n) (d : Date) : d < Date.succIter n d := by
  cases n with
  | zero => omega
  | succ k =>
      exact Date.lt_of_le_of_lt (Date.le_succIter k d) (Date.lt_succ (Date.succIter k d))

theorem Date.predIter_le (n : Nat) (d : Date) : Date.predIter n d ≤ d := by
  induction n generalizing d with
  | zero => exact Date.le_refl d
  | succ k ih =>
      exact Date.le_trans (ih d.pred) (Date.le_of_lt (Date.pred_lt d))

theorem Date.succIter_add (a b : Nat) (d : Date) :
    Date.succIter (a + b) d = Date.succIter a (Date.succIter b d) := by
  induction a with
  | zero => simp [Date.succIter]
  | succ k ih =>
      have h : k + 1 + b = (k + b) + 1 := by omega
      rw [h]
      simp only [Date.succIter, ih]

theorem Date.succ_valid {d : Date} (h : d.Valid) : d.succ.Valid := by
  rcases d with ⟨y, m, dd⟩
  rw [Date.valid_def] at h
  simp only at h
  simp only [Date.succ]
  split_ifs with h1 h2 <;> rw [Date.valid_def] <;> simp only
  · omega
  · have := Date.daysInMonth_pos y (m + 1)
    omega
  · have := Date.daysInMonth_pos (y + 1) 1
    omega

theorem Date.pred_valid {d : Date} (h : d.Valid) : d.pred.Valid := by
  rcases d with ⟨y, m, dd⟩
  rw [Date.valid_def] at h
  simp only at h
  simp only [Date.pred]
  split_ifs with h1 h2 <;> rw [Date.valid_def] <;> simp only
  · omega
  · have := Date.daysInMonth_pos y (m - 1)
    omega
  · have := Date.daysInMonth_twelve (y - 1)
    omega

theorem Date.succ_pred {d : Date} (h : d.Valid) : d.pred.succ = d := by
  rcases d with ⟨y, m, dd⟩
  rw [Date.valid_def] at h
  simp only at h
  simp only [Date.pred]
  split_ifs with h1 h2
  · simp only at h1
    simp only [Date.succ]
    split_ifs with h3 h4 <;> simp only at h3 <;>
      [skip; simp only at h4; skip] <;> simp only [Date.mk.injEq, true_and, and_true] <;> omega
  · simp only at h1 h2
    simp only [Date.succ]
    split_ifs with h3 h4 <;> simp only at h3 <;>
      [skip; simp only at h4; skip] <;> simp only [Date.mk.injEq, true_and, and_true] <;> omega
  · simp only at h1 h2
    have h12 := Date.daysInMonth_twelve (y - 1)
    simp only [Date.succ]
    split_ifs with h3 h4 <;> simp only at h3 <;>
      [skip; simp only at h4; skip] <;> simp only [Date.mk.injEq, true_and, and_true] <;> omega

theorem Date.succIter_predIter (n : Nat) :
    ∀ d : Date, d.Valid → Date.succIter n (Date.predIter n d) = d := by
  induction n with
  | zero => intro d _; rfl
  | succ k ih =>
      intro d h
      simp only [Date.predIter, Date.succIter]
      rw [ih _ (Date.pred_valid h)]
      exact Date.succ_pred h

theorem Date.predIter_valid (n : Nat) :
    ∀ d : Date, d.Valid → (Date.predIter n d).Valid := by
  induction n with
  | zero => intro d h; exact h
  | succ k ih =>
      intro d h
      exact ih _ (Date.pred_valid h)

theorem Date.succIter_valid (n : Nat) :
    ∀ d : Date, d.Valid → (Date.succIter n d).Valid := by
  induction n with
  | zero => intro d h; exact h
  | succ k ih =>
      intro d h
      exact Date.succ_valid (ih d h)

/-- Advance a date by `n` calendar days (backwards when `n < 0`), the
embedding of `date + gregorian::days(n)`. -/
def Date.addDays (n : Int) (d : Date) : Date :=
  if 0 ≤ n then Date.succIter n.toNat d else Date.predIter (-n).toNat d

/-- Advance a date by `n` calendar months, the embedding of
`date + gregorian::months(n)`: the year/month pair moves by `n` months
and the day follows boost's snap-to-end policy (a last day of its month
maps to the last day of the target month; otherwise the day is kept,
clamped to the target month's length). -/
def Date.addMonths (n : Int) (d : Date) : Date :=
  ⟨(d.year * 12 + (d.month - 1) + n) / 12,
   (d.year * 12 + (d.month - 1) + n) % 12 + 1,
   if d.day = Date.daysInMonth d.year d.month then
     Date.daysInMonth ((d.year * 12 + (d.month - 1) + n) / 12)
       ((d.year * 12 + (d.month - 1) + n) % 12 + 1)
   else
     min d.day (Date.daysInMonth ((d.year * 12 + (d.month - 1) + n) / 12)
       ((d.year * 12 + (d.month - 1) + n) % 12 + 1))⟩

/-- Advance a date by `n` calendar years, the embedding of
`date + gregorian::years(n)`: the year moves by `n`, the month is kept
and the day follows boost's snap-to-end policy. -/
def Date.addYears (n : Int) (d : Date) : Date :=
  ⟨d.year + n, d.month,
   if d.day = Date.daysInMonth d.year d.month then
     Date.daysInMonth (d.year + n) d.month
   else
     min d.day (Date.daysInMonth (d.year + n) d.month)⟩

/-- Serial day number of a date (era-based civil-calendar formula), used
only to read off the day of the week. -/
def Date.dayNumber (d : Date) : Int :=
  (if d.month ≤ 2 then d.year - 1 else d.year) / 400 * 146097 +
    ((if d.month ≤ 2 then d.year - 1 else d.year) -
        (if d.month ≤ 2 then d.year - 1 else d.year) / 400 * 400) * 365 +
    ((if d.month ≤ 2 then d.year - 1 else d.year) -
        (if d.month ≤ 2 then d.year - 1 else d.year) / 400 * 400) / 4 -
    ((if d.month ≤ 2 then d.year - 1 else d.year) -
        (if d.month ≤ 2 then d.year - 1 else d.year) / 400 * 400) / 100 +
    (153 * (d.month + (if 2 < d.month then -3 else 9)) + 2) / 5 +
    d.day - 1 - 719468

/-- Day of the week, `0` = Sunday through `6` = Saturday
(`date_time::weekdays`, as produced by `date_t::day_of_week()`). -/
def Date.weekday (d : Date) : Int :=
  (d.dayNumber + 4) % 7

/-- The step quantum of a duration (`date_duration_t::skip_quantum_t`,
src/src/times.h:192). -/
inductive skip_quantum_t where
  | DAYS
  | WEEKS
  | MONTHS
  | QUARTERS
  | YEARS
deriving DecidableEq

/-- A relative duration: a quantum plus an integer length
(`date_duration_t`, src/src/times.h:190). The C++ `length` field has
type `int`; no constructor restricts its sign. -/
structure date_duration_t where
  quantum : skip_quantum_t
  length : Int
deriving DecidableEq

/-- The C++ default constructor `date_duration_t()` (src/src/times.h:197):
quantum `DAYS`, length `0`. -/
def date_duration_t.default_mk : date_duration_t := ⟨skip_quantum_t.DAYS, 0⟩

/-- The C++ copy constructor `date_duration_t(const date_duration_t&)`
(src/src/times.h:204): copies both fields. -/
def date_duration_t.copy_mk (dur : date_duration_t) : date_duration_t :=
  ⟨dur.quantum, dur.length⟩

/-- `date_duration_t::add` (src/src/times.h:212): step the date forward
by the duration; a week is seven days and a quarter is three months. -/
def date_duration_t.add (dur : date_duration_t) (d : Date) : Date :=
  match dur.quantum with
  | skip_quantum_t.DAYS => Date.addDays dur.length d
  | skip_quantum_t.WEEKS => Date.addDays (7 * dur.length) d
  | skip_quantum_t.MONTHS => Date.addMonths dur.length d
  | skip_quantum_t.QUARTERS => Date.addMonths (dur.length * 3) d
  | skip_quantum_t.YEARS => Date.addYears dur.length d

/-- `date_duration_t::subtract` (src/src/times.h:229): step the date
backward by the duration. -/
def date_duration_t.subtract (dur : date_duration_t) (d : Date) : Date :=
  match dur.quantum with
  | skip_quantum_t.DAYS => Date.addDays (-dur.length) d
  | skip_quantum_t.WEEKS => Date.addDays (-(7 * dur.length)) d
  | skip_quantum_t.MONTHS => Date.addMonths (-dur.length) d
  | skip_quantum_t.QUARTERS => Date.addMonths (-(dur.length * 3)) d
  | skip_quantum_t.YEARS => Date.addYears (-dur.length) d

/-- Modelled from the spec: `date_duration_t::find_nearest` is declared
at src/src/times.h:268 but its body lives in `times.cc`, outside the
provided sources. Spec section 4.1: "given any date, returns the
canonical aligned boundary at or before that date for the given
quantum". The process-wide start-of-week setting (`start_of_week`,
src/src/times.h:80) is passed explicitly as `sow` (0 = Sunday), per the
spec's instruction in section 5 to treat it as injectable
configuration. Day boundaries are the date itself; week boundaries are
the latest configured start-of-week at or before the date; month,
quarter and year boundaries are the first day of the month, quarter and
year containing the date. -/
def date_duration_t.find_nearest (sow : Int) (d : Date) (skip : skip_quantum_t) : Date :=
  match skip with
  | skip_quantum_t.DAYS => d
  | skip_quantum_t.WEEKS => Date.predIter ((d.weekday - sow) % 7).toNat d
  | skip_quantum_t.MONTHS => ⟨d.year, d.month, 1⟩
  | skip_quantum_t.QUARTERS => ⟨d.year, 3 * ((d.month - 1) / 3) + 1, 1⟩
  | skip_quantum_t.YEARS => ⟨d.year, 1, 1⟩

/-- A partially specified date (`date_specifier_t`, src/src/times.h:284):
any subset of year, month, day and weekday may be present. -/
structure date_specifier_t where
  year : Option Int
  month : Option Int
  day : Option Int
  wday : Option Int
deriving DecidableEq

/-- Modelled from the spec: `date_specifier_t::begin` is declared at
src/src/times.h:330 but its body lives in `times.cc`, outside the
provided sources. Spec section 4.2: resolve the partial date to "the
earliest date matching all present fields"; an absent year is
substituted by the caller-supplied disambiguation year, which this
model takes as a mandatory argument `y` (the C++ optional-year
threading plus the current-date fallback). An absent month or day
defaults to the earliest match (January, the 1st); a present weekday
moves the base date forward to the first matching day. -/
def date_specifier_t.begin (s : date_specifier_t) (y : Int) : Date :=
  match s.wday with
  | none => ⟨s.year.getD y, s.month.getD 1, s.day.getD 1⟩
  | some w =>
      Date.succIter
        ((w - Date.weekday ⟨s.year.getD y, s.month.getD 1, s.day.getD 1⟩) % 7).toNat
        ⟨s.year.getD y, s.month.getD 1, s.day.getD 1⟩

/-- `date_specifier_t::implied_duration` (src/src/times.h:338): one day
if the day or weekday field is present, else one month if the month
field is present, else one year if the year field is present, else
none. -/
def date_specifier_t.implied_duration (s : date_specifier_t) : Option date_duration_t :=
  if s.day.isSome || s.wday.isSome then some ⟨skip_quantum_t.DAYS, 1⟩
  else if s.month.isSome then some ⟨skip_quantum_t.MONTHS, 1⟩
  else if s.year.isSome then some ⟨skip_quantum_t.YEARS, 1⟩
  else none

/-- Modelled from the spec: `date_specifier_t::end` is declared at
src/src/times.h:331 but its body lives in `times.cc`, outside the
provided sources. Spec section 4.2: the exclusive upper end of the span
matched by the specifier, one implied granularity past `begin`; when no
field at all is present there is no implied duration and resolution
fails (spec section 7, MalformedPeriod), modelled as `none`. -/
def date_specifier_t.end_ (s : date_specifier_t) (y : Int) : Option Date :=
  Option.map (fun dur => date_duration_t.add dur (s.begin y)) s.implied_duration

/-- `date_specifier_t::is_within` (src/src/times.h:333):
`date >= begin(current_year) && date < end(current_year)`. Since the
model makes `end_` partial (it fails only for the degenerate specifier
with no field present, where the C++ call would throw), an undefined
end poses no upper constraint here. -/
def date_specifier_t.is_within (s : date_specifier_t) (d : Date) (y : Int) : Bool :=
  decide (s.begin y ≤ d) &&
    (match s.end_ y with
     | some e => decide (d < e)
     | none => true)

/-- A pair of optional specifier bounds with an inclusive/exclusive flag
on the upper bound (`date_range_t`, src/src/times.h:380). The fields
`range_begin`, `range_end` and `end_inclusive` are private in C++;
`end_inclusive` is only ever written by the public constructor (which
initializes it to `false`) and by the friend `date_parser_t`. -/
structure date_range_t where
  range_begin : Option date_specifier_t
  range_end : Option date_specifier_t
  end_inclusive : Bool
deriving DecidableEq

/-- The public C++ constructor
`date_range_t(range_begin = none, range_end = none)`
(src/src/times.h:390): initializes `end_inclusive` to `false`. -/
def date_range_t.public_mk (b e : Option date_specifier_t) : date_range_t :=
  ⟨b, e, false⟩

/-- `date_range_t::begin` (src/src/times.h:405): the lower specifier's
begin when present, else none. -/
def date_range_t.begin (r : date_range_t) (y : Int) : Option Date :=
  match r.range_begin with
  | some lo => some (lo.begin y)
  | none => none

/-- `date_range_t::end` (src/src/times.h:411): none without an upper
specifier; otherwise the upper specifier's end when `end_inclusive`,
else its begin. (Named `end_` because `end` is reserved in Lean.) -/
def date_range_t.end_ (r : date_range_t) (y : Int) : Option Date :=
  match r.range_end with
  | some hi => if r.end_inclusive then hi.end_ y else some (hi.begin y)
  | none => none

/-- `date_range_t::is_within` (src/src/times.h:422): after the begin
bound when one exists, and before the end bound when one exists. -/
def date_range_t.is_within (r : date_range_t) (d : Date) (y : Int) : Bool :=
  (match r.begin y with
   | some b => decide (b ≤ d)
   | none => true) &&
  (match r.end_ y with
   | some e => decide (d < e)
   | none => true)

/-- The tagged choice held by `date_specifier_or_range_t`
(src/src/times.h:459): a `boost::variant<int, date_specifier_t,
date_range_t>`. The `int` alternative is the default-constructed,
never-populated placeholder the spec flags as dead/reserved in
section 9; both query functions return none on it. -/
inductive date_specifier_or_range_t where
  | placeholder (n : Int)
  | spec (s : date_specifier_t)
  | range (r : date_range_t)
deriving DecidableEq

/-- `date_specifier_or_range_t::begin` (src/src/times.h:483): dispatch
on the held alternative. -/
def date_specifier_or_range_t.begin (v : date_specifier_or_range_t) (y : Int) : Option Date :=
  match v with
  | date_specifier_or_range_t.spec s => some (s.begin y)
  | date_specifier_or_range_t.range r => r.begin y
  | date_specifier_or_range_t.placeholder _ => none

/-- `date_specifier_or_range_t::end` (src/src/times.h:491): dispatch on
the held alternative. -/
def date_specifier_or_range_t.end_ (v : date_specifier_or_range_t) (y : Int) : Option Date :=
  match v with
  | date_specifier_or_range_t.spec s => s.end_ y
  | date_specifier_or_range_t.range r => r.end_ y
  | date_specifier_or_range_t.placeholder _ => none

/-- Modelled from the spec: containment for `date_specifier_or_range_t`
(spec section 4.4, "Dispatches begin/end/is_within to whichever variant
is held") — the header declares no `is_within` member for this class,
so the dispatch is modelled from the spec's words; the dead placeholder
alternative poses no constraint. -/
def date_specifier_or_range_t.is_within (v : date_specifier_or_range_t) (d : Date) (y : Int) : Bool :=
  match v with
  | date_specifier_or_range_t.spec s => s.is_within d y
  | date_specifier_or_range_t.range r => r.is_within d y
  | date_specifier_or_range_t.placeholder _ => true

/-- The stateful interval engine (`date_interval_t`, src/src/times.h:525):
a bounding window plus a step duration and the cached resolved
boundaries. -/
structure date_interval_t where
  range : Option date_specifier_or_range_t
  start : Option Date
  finish : Option Date
  aligned : Bool
  next : Option Date
  duration : Option date_duration_t
  end_of_duration : Option Date
deriving DecidableEq

/-- The C++ default constructor `date_interval_t()` (src/src/times.h:542):
everything unset, `aligned = false`. -/
def date_interval_t.default_mk : date_interval_t :=
  ⟨none, none, none, false, none, none, none⟩

/-- `date_interval_t::operator==` (src/src/times.h:563):
`start == other.start && (! start || *start == *other.start)` — equality
looks at `start` alone. -/
def date_interval_t.interval_eq (a b : date_interval_t) : Bool :=
  decide (a.start = b.start) &&
    (match a.start, b.start with
     | some x, some z => decide (x = z)
     | _, _ => true)

/-- `date_interval_t::is_valid` (src/src/times.h:584): true iff `start`
is set. -/
def date_interval_t.is_valid (i : date_interval_t) : Bool :=
  i.start.isSome

/-- `date_interval_t::begin` (src/src/times.h:572):
`start ? start : (range ? range->begin(current_year) : none)`. -/
def date_interval_t.begin (i : date_interval_t) (y : Int) : Option Date :=
  match i.start with
  | some s => some s
  | none =>
      match i.range with
      | some w => w.begin y
      | none => none

/-- `date_interval_t::end` (src/src/times.h:575):
`finish ? finish : (range ? range->end(current_year) : none)`. (Named
`end_` because `end` is reserved in Lean.) -/
def date_interval_t.end_ (i : date_interval_t) (y : Int) : Option Date :=
  match i.finish with
  | some f => some f
  | none =>
      match i.range with
      | some w => w.end_ y
      | none => none

/-- `date_interval_t::inclusive_end` (src/src/times.h:593):
`*end_of_duration - gregorian::days(1)` when set, else none. -/
def date_interval_t.inclusive_end (i : date_interval_t) : Option Date :=
  match i.end_of_duration with
  | some e => some (Date.addDays (-1) e)
  | none => none

/-- Modelled from the spec: `date_interval_t::resolve_end` is declared
at src/src/times.h:581 but its body lives in `times.cc`, outside the
provided sources. Spec section 4.5: "recompute `end_of_duration` from
the current `start` and `duration`", re-establishing
`end_of_duration == duration.add(start)`; with no resolved start or no
duration there is nothing to recompute. -/
def date_interval_t.resolve_end (i : date_interval_t) : date_interval_t :=
  match i.start, i.duration with
  | some s, some dur => { i with end_of_duration := some (dur.add s) }
  | _, _ => i

/-- Modelled from the spec: `date_interval_t::operator++` is declared at
src/src/times.h:600 but its body lives in `times.cc`, outside the
provided sources. Spec section 4.5, advance-to-next-period: "sets
`start = end_of_duration`, then `resolve_end()`. Must be rejected
(no-op, or signaled invalid) once the new `start` would exceed an
explicit `finish` bound." Without a cached `end_of_duration` there is
no next period to advance to. -/
def date_interval_t.step (i : date_interval_t) : date_interval_t :=
  match i.end_of_duration with
  | none => i
  | some eod =>
      match i.finish with
      | some f => if f < eod then i else date_interval_t.resolve_end { i with start := some eod }
      | none => date_interval_t.resolve_end { i with start := some eod }

/-- Repeated application of the advance-to-next-period step. -/
def date_interval_t.stepIter : Nat → date_interval_t → date_interval_t
  | 0, i => i
  | n + 1, i => date_interval_t.step (date_interval_t.stepIter n i)

/-- Iterated duration step on dates, used to describe the window
sequence the stepping engine produces. -/
def date_duration_t.addIter (dur : date_duration_t) : Nat → Date → Date
  | 0, d => d
  | n + 1, d => dur.add (dur.addIter n d)

/-- The window out-of-bounds test of `find_period` (spec section 4.5:
"Returns false (engine left unchanged) if `window` bounds exist and
`date` falls outside them"): the date lies before a resolved window
begin or at/after a resolved window end. The window is resolved with
the year of the tested date as disambiguation year (spec section 4.2:
"typically the year of the date being tested"). -/
def date_interval_t.out_of_bounds (i : date_interval_t) (d : Date) : Bool :=
  (match (match i.range with
          | some w => w.begin d.year
          | none => none) with
   | some b => decide (d < b)
   | none => false) ||
  (match (match i.range with
          | some w => w.end_ d.year
          | none => none) with
   | some e => decide (e ≤ d)
   | none => false)

/-- Modelled from the spec: `date_interval_t::find_period` is declared
at src/src/times.h:591 but its body lives in `times.cc`, outside the
provided sources. Spec section 4.5: "locate the period (of length
`duration`, aligned per above) that contains `date` … Returns false
(engine left unchanged) if `window` bounds exist and `date` falls
outside them; otherwise computes the boundary-aligned period containing
`date` and mutates `start`/`end_of_duration` to match, returning true."
The aligned period containing `date` starts at the nearest quantum
boundary at or before `date` (`find_nearest`, spec section 4.1, with
`sow` the injectable start-of-week) and ends one duration later.
Without a duration no period length is defined and no period can be
found. -/
def date_interval_t.find_period (sow : Int) (d : Date) (i : date_interval_t) :
    Bool × date_interval_t :=
  if i.out_of_bounds d then (false, i)
  else
    match i.duration with
    | none => (false, i)
    | some dur =>
        (true,
         { i with
             start := some (date_duration_t.find_nearest sow d dur.quantum),
             end_of_duration :=
               some (dur.add (date_duration_t.find_nearest sow d dur.quantum)) })

theorem Date.lt_addMonths_of {d b : Date} {n : Int} (hm1 : 1 ≤ d.month)
    (hm2 : d.month ≤ 12) (hby : b.year = d.year) (hbm : d.month < b.month + n) :
    d < Date.addMonths n b := by
  simp only [Date.addMonths, Date.lt_def]
  rw [hby] at *
  omega

theorem Date.lt_addMonths {d : Date} {n : Int} (hm1 : 1 ≤ d.month)
    (hm2 : d.month ≤ 12) (hn : 1 ≤ n) : d < Date.addMonths n d :=
  Date.lt_addMonths_of hm1 hm2 rfl (by omega)

theorem Date.lt_addYears_of {d b : Date} {n : Int} (hby : b.year = d.year)
    (hn : 1 ≤ n) : d < Date.addYears n b := by
  simp only [Date.addYears, Date.lt_def]
  left
  omega

theorem Date.addMonths_valid {d : Date} (n : Int) (h : d.Valid) :
    (Date.addMonths n d).Valid := by
  rw [Date.valid_def] at h
  rw [Date.valid_def]
  simp only [Date.addMonths]
  have hp := Date.daysInMonth_pos
    ((d.year * 12 + (d.month - 1) + n) / 12)
    ((d.year * 12 + (d.month - 1) + n) % 12 + 1)
  split_ifs <;> omega

theorem Date.addYears_valid {d : Date} (n : Int) (h : d.Valid) :
    (Date.addYears n d).Valid := by
  rw [Date.valid_def] at h
  rw [Date.valid_def]
  simp only [Date.addYears]
  have hp := Date.daysInMonth_pos (d.year + n) d.month
  split_ifs <;> omega

theorem Date.addDays_valid {d : Date} (n : Int) (h : d.Valid) :
    (Date.addDays n d).Valid := by
  simp only [Date.addDays]
  split_ifs
  · exact Date.succIter_valid _ d h
  · exact Date.predIter_valid _ d h

theorem date_duration_t.add_valid {dur : date_duration_t} {d : Date}
    (h : d.Valid) : (dur.add d).Valid := by
  rcases dur with ⟨q, len⟩
  cases q <;> simp only [date_duration_t.add]
  · exact Date.addDays_valid _ h
  · exact Date.addDays_valid _ h
  · exact Date.addMonths_valid _ h
  · exact Date.addMonths_valid _ h
  · exact Date.addYears_valid _ h

theorem Date.lt_addDays {d : Date} {n : Int} (hn : 1 ≤ n) : d < Date.addDays n d := by
  simp only [Date.addDays]
  rw [if_pos (by omega : (0:Int) ≤ n)]
  exact Date.lt_succIter (by omega) d

theorem date_duration_t.lt_add {dur : date_duration_t} {d : Date}
    (h : d.Valid) (hlen : 1 ≤ dur.length) : d < dur.add d := by
  rw [Date.valid_def] at h
  rcases dur with ⟨q, len⟩
  simp only at hlen
  cases q <;> simp only [date_duration_t.add]
  · exact Date.lt_addDays hlen
  · exact Date.lt_addDays (by omega)
  · exact Date.lt_addMonths h.1 h.2.1 hlen
  · exact Date.lt_addMonths h.1 h.2.1 (by omega)
  · exact Date.lt_addYears_of rfl hlen

theorem date_duration_t.find_nearest_le {sow : Int} {d : Date}
    (q : skip_quantum_t) (h : d.Valid) : date_duration_t.find_nearest sow d q ≤ d := by
  rw [Date.valid_def] at h
  cases q <;> simp only [date_duration_t.find_nearest]
  · exact Date.le_refl d
  · exact Date.predIter_le _ d
  · rcases d with ⟨y, m, dd⟩
    simp only at h
    simp only [Date.le_def, Date.lt_def, Date.mk.injEq, true_and, and_true]
    omega
  · rcases d with ⟨y, m, dd⟩
    simp only at h
    simp only [Date.le_def, Date.lt_def, Date.mk.injEq, true_and, and_true]
    omega
  · rcases d with ⟨y, m, dd⟩
    simp only at h
    simp only [Date.le_def, Date.lt_def, Date.mk.injEq, true_and, and_true]
    omega

theorem date_duration_t.lt_add_find_nearest {sow : Int} {d : Date}
    {dur : date_duration_t} (h : d.Valid) (hlen : 1 ≤ dur.length) :
    d < dur.add (date_duration_t.find_nearest sow d dur.quantum) := by
  have hv := h
  rw [Date.valid_def] at hv
  rcases dur with ⟨q, len⟩
  simp only at hlen
  cases q <;> simp only [date_duration_t.add, date_duration_t.find_nearest]
  · exact Date.lt_addDays hlen
  · have hk : ((d.weekday - sow) % 7).toNat ≤ 6 := by omega
    have h7 : (0:Int) ≤ 7 * len := by omega
    simp only [Date.addDays, if_pos h7]
    have hN : 7 ≤ (7 * len).toNat := by omega
    have hsplit : (7 * len).toNat =
        ((7 * len).toNat - ((d.weekday - sow) % 7).toNat) +
          ((d.weekday - sow) % 7).toNat := by omega
    rw [hsplit, Date.succIter_add, Date.succIter_predIter _ d h]
    exact Date.lt_succIter (by omega) d
  · exact Date.lt_addMonths_of hv.1 hv.2.1 rfl (by dsimp only; omega)
  · refine Date.lt_addMonths_of hv.1 hv.2.1 rfl ?_
    dsimp only
    omega
  · exact Date.lt_addYears_of rfl hlen

theorem date_interval_t.step_closed (rng : Option date_specifier_or_range_t)
    (al : Bool) (nx : Option Date) (s : Date) (dur : date_duration_t) :
    date_interval_t.step ⟨rng, some s, none, al, nx, some dur, some (dur.add s)⟩ =
      ⟨rng, some (dur.add s), none, al, nx, some dur, some (dur.add (dur.add s))⟩ := rfl

theorem date_interval_t.stepIter_closed (rng : Option date_specifier_or_range_t)
    (al : Bool) (nx : Option Date) (s : Date) (dur : date_duration_t) :
    ∀ n : Nat,
      date_interval_t.stepIter n ⟨rng, some s, none, al, nx, some dur, some (dur.add s)⟩ =
        ⟨rng, some (dur.addIter n s), none, al, nx, some dur,
          some (dur.add (dur.addIter n s))⟩ := by
  intro n
  induction n with
  | zero => rfl
  | succ k ih =>
      simp only [date_interval_t.stepIter, ih, date_interval_t.step_closed,
        date_duration_t.addIter]

theorem date_duration_t.addIter_valid {dur : date_duration_t} {s : Date}
    (h : s.Valid) : ∀ n : Nat, (dur.addIter n s).Valid := by
  intro n
  induction n with
  | zero => exact h
  | succ k ih => exact date_duration_t.add_valid ih

/-- Claim C1: for every Interval in which both start and duration are
defined, the cached step boundary satisfies
`end_of_duration == duration.add(start)`; `resolve_end()` re-establishes
this equality after any change to `start` (the start itself is left
untouched), so every stabilized interval maintains it. -/
theorem claim_c1 (i : date_interval_t) (s0 : Option Date) :
    (date_interval_t.resolve_end { i with start := s0 }).start = s0 ∧
    ∀ s dur,
      (date_interval_t.resolve_end { i with start := s0 }).start = some s →
      (date_interval_t.resolve_end { i with start := s0 }).duration = some dur →
      (date_interval_t.resolve_end { i with start := s0 }).end_of_duration =
        some (dur.add s) := by
  rcases i with ⟨rng, st, fi, al, nx, du, eod⟩
  cases s0 with
  | none =>
      cases du with
      | none => exact ⟨rfl, fun s dur h1 h2 => by simp [date_interval_t.resolve_end] at h1⟩
      | some dur1 => exact ⟨rfl, fun s dur h1 h2 => by simp [date_interval_t.resolve_end] at h1⟩
  | some s1 =>
      cases du with
      | none => exact ⟨rfl, fun s dur h1 h2 => by simp [date_interval_t.resolve_end] at h2⟩
      | some dur1 =>
          refine ⟨rfl, fun s dur h1 h2 => ?_⟩
          have e1 : s1 = s := by simpa [date_interval_t.resolve_end] using h1
          have e2 : dur1 = dur := by simpa [date_interval_t.resolve_end] using h2
          subst e1
          subst e2
          rfl

/-- Witness for claim C1 at a concrete interval. -/
theorem claim_c1_witness :
    (date_interval_t.resolve_end
        { date_interval_t.default_mk with
            start := some ⟨2021, 3, 1⟩,
            duration := some ⟨skip_quantum_t.MONTHS, 1⟩ }).end_of_duration =
      some (date_duration_t.add ⟨skip_quantum_t.MONTHS, 1⟩ ⟨2021, 3, 1⟩) :=
  (claim_c1 { date_interval_t.default_mk with duration := some ⟨skip_quantum_t.MONTHS, 1⟩ }
      (some ⟨2021, 3, 1⟩)).2 ⟨2021, 3, 1⟩ ⟨skip_quantum_t.MONTHS, 1⟩ rfl rfl

/-- Claim C2: two intervals are operator==-equal iff both starts are
unset or both are set to the same date; every other field is ignored by
the comparison. -/
theorem claim_c2 (a b : date_interval_t) :
    (date_interval_t.interval_eq a b = true ↔
      ((a.start = none ∧ b.start = none) ∨ ∃ d, a.start = some d ∧ b.start = some d)) ∧
    ∀ a2 b2 : date_interval_t, a2.start = a.start → b2.start = b.start →
      date_interval_t.interval_eq a2 b2 = date_interval_t.interval_eq a b := by
  constructor
  · rcases a with ⟨ra, sa, fa, aa, na, da, ea⟩
    rcases b with ⟨rb, sb, fb, ab2, nb, db, eb⟩
    dsimp only
    cases sa <;> cases sb <;> simp [date_interval_t.interval_eq]
    exact eq_comm
  · intro a2 b2 h1 h2
    simp only [date_interval_t.interval_eq, h1, h2]

/-- Witness for claim C2: two intervals that differ in every field but
`start` compare equal. -/
theorem claim_c2_witness :
    date_interval_t.interval_eq
      { date_interval_t.default_mk with start := some ⟨2021, 1, 1⟩, aligned := true }
      { date_interval_t.default_mk with
          start := some ⟨2021, 1, 1⟩,
          duration := some ⟨skip_quantum_t.WEEKS, 2⟩ } = true :=
  (claim_c2 _ _).1.mpr (Or.inr ⟨⟨2021, 1, 1⟩, rfl, rfl⟩)

/-- Claim C3: `find_period(date)` returns false and leaves the interval
unchanged when the window has bounds and the date lies outside them;
otherwise (given a step duration) it returns true and rewrites exactly
`start` and `end_of_duration` to the boundary-aligned period containing
the date — the new start is an aligned boundary at or before the date
and the date lies before the new end of duration. -/
theorem claim_c3 (sow : Int) (i : date_interval_t) (d : Date) :
    (i.out_of_bounds d = true → date_interval_t.find_period sow d i = (false, i)) ∧
    (∀ dur, i.out_of_bounds d = false → i.duration = some dur → 1 ≤ dur.length →
      d.Valid →
      date_interval_t.find_period sow d i =
        (true,
         { i with
             start := some (date_duration_t.find_nearest sow d dur.quantum),
             end_of_duration :=
               some (dur.add (date_duration_t.find_nearest sow d dur.quantum)) }) ∧
      date_duration_t.find_nearest sow d dur.quantum ≤ d ∧
      d < dur.add (date_duration_t.find_nearest sow d dur.quantum)) := by
  constructor
  · intro h
    simp [date_interval_t.find_period, h]
  · intro dur hob hdur hlen hv
    refine ⟨?_, date_duration_t.find_nearest_le dur.quantum hv,
      date_duration_t.lt_add_find_nearest hv hlen⟩
    simp [date_interval_t.find_period, hob, hdur]

/-- Witness for claim C3: a window of year 2020 rejects 2021-03-10
unchanged; an unbounded monthly interval aligns around 2021-03-10. -/
theorem claim_c3_witness :
    (date_interval_t.find_period 1 ⟨2021, 3, 10⟩
        { date_interval_t.default_mk with
            range := some (date_specifier_or_range_t.spec ⟨some 2020, none, none, none⟩) } =
      (false,
       { date_interval_t.default_mk with
           range := some (date_specifier_or_range_t.spec ⟨some 2020, none, none, none⟩) })) ∧
    date_duration_t.find_nearest 1 ⟨2021, 3, 10⟩ skip_quantum_t.MONTHS ≤ ⟨2021, 3, 10⟩ ∧
    (⟨2021, 3, 10⟩ : Date) < date_duration_t.add ⟨skip_quantum_t.MONTHS, 1⟩
      (date_duration_t.find_nearest 1 ⟨2021, 3, 10⟩ skip_quantum_t.MONTHS) := by
  refine ⟨(claim_c3 1 _ _).1 (by decide), ?_, ?_⟩
  · exact ((claim_c3 1 { date_interval_t.default_mk with
      duration := some ⟨skip_quantum_t.MONTHS, 1⟩ } ⟨2021, 3, 10⟩).2
      ⟨skip_quantum_t.MONTHS, 1⟩ (by decide) rfl (by decide) (by decide)).2.1
  · exact ((claim_c3 1 { date_interval_t.default_mk with
      duration := some ⟨skip_quantum_t.MONTHS, 1⟩ } ⟨2021, 3, 10⟩).2
      ⟨skip_quantum_t.MONTHS, 1⟩ (by decide) rfl (by decide) (by decide)).2.2

/-- Claim C4 (amended): for a stabilized interval whose duration has
positive length, repeated stepping yields a strictly increasing,
contiguous window sequence — each step's new start equals the previous
`end_of_duration` — and a step whose new start would exceed an explicit
`finish` is rejected with the state unchanged. (The positivity premise
is forced by the counterexample: a zero-length duration makes every
accepted step a fixed point.) -/
theorem claim_c4 (i : date_interval_t) (s : Date) (dur : date_duration_t)
    (hs : i.start = some s) (hdur : i.duration = some dur)
    (heod : i.end_of_duration = some (dur.add s))
    (hval : s.Valid) (hlen : 1 ≤ dur.length) :
    (∀ f, i.finish = some f → f < dur.add s → i.step = i) ∧
    (i.finish = none → ∀ n : Nat,
      (date_interval_t.stepIter n i).start = some (dur.addIter n s) ∧
      (date_interval_t.stepIter n i).end_of_duration = some (dur.addIter (n + 1) s) ∧
      (date_interval_t.stepIter (n + 1) i).start =
        (date_interval_t.stepIter n i).end_of_duration ∧
      dur.addIter n s < dur.addIter (n + 1) s) := by
  rcases i with ⟨rng, st, fi, al, nx, du, eod⟩
  simp only at hs hdur heod
  subst hs
  subst hdur
  subst heod
  constructor
  · intro f hf hlt
    simp only at hf
    subst hf
    simp only [date_interval_t.step]
    rw [if_pos hlt]
  · intro hf
    simp only at hf
    subst hf
    intro n
    have hc := date_interval_t.stepIter_closed rng al nx s dur
    refine ⟨?_, ?_, ?_, ?_⟩
    · rw [hc n]
    · rw [hc n]
      rfl
    · rw [hc (n + 1), hc n]
      rfl
    · exact date_duration_t.lt_add (date_duration_t.addIter_valid hval n) hlen

/-- Witness for claim C4 at a concrete monthly interval. -/
theorem claim_c4_witness :
    (date_interval_t.stepIter 1
        { date_interval_t.default_mk with
            start := some ⟨2021, 1, 1⟩,
            duration := some ⟨skip_quantum_t.MONTHS, 1⟩,
            end_of_duration :=
              some (date_duration_t.add ⟨skip_quantum_t.MONTHS, 1⟩ ⟨2021, 1, 1⟩) }).start =
      some (date_duration_t.addIter ⟨skip_quantum_t.MONTHS, 1⟩ 1 ⟨2021, 1, 1⟩) ∧
    date_duration_t.addIter ⟨skip_quantum_t.MONTHS, 1⟩ 0 ⟨2021, 1, 1⟩ <
      date_duration_t.addIter ⟨skip_quantum_t.MONTHS, 1⟩ 1 ⟨2021, 1, 1⟩ := by
  have h := (claim_c4
    { date_interval_t.default_mk with
        start := some ⟨2021, 1, 1⟩,
        duration := some ⟨skip_quantum_t.MONTHS, 1⟩,
        end_of_duration :=
          some (date_duration_t.add ⟨skip_quantum_t.MONTHS, 1⟩ ⟨2021, 1, 1⟩) }
    ⟨2021, 1, 1⟩ ⟨skip_quantum_t.MONTHS, 1⟩ rfl rfl rfl (by decide) (by decide)).2 rfl
  exact ⟨(h 1).1, (h 0).2.2.2⟩

/-- Counterexample for claim C4 as stated: the default-constructed
duration has length zero, and an interval stepping by it is accepted
(no finish bound) yet never advances, so the window sequence is not
strictly increasing. -/
theorem claim_c4_counterexample :
    date_interval_t.step
        { date_interval_t.default_mk with
            start := some ⟨2021, 1, 1⟩,
            duration := some date_duration_t.default_mk,
            end_of_duration := some ⟨2021, 1, 1⟩ } =
      { date_interval_t.default_mk with
          start := some ⟨2021, 1, 1⟩,
          duration := some date_duration_t.default_mk,
          end_of_duration := some ⟨2021, 1, 1⟩ } ∧
    ({ date_interval_t.default_mk with
        start := some ⟨2021, 1, 1⟩,
        duration := some date_duration_t.default_mk,
        end_of_duration := some ⟨2021, 1, 1⟩ } : date_interval_t).finish = none ∧
    some (date_duration_t.add date_duration_t.default_mk ⟨2021, 1, 1⟩) =
      some (⟨2021, 1, 1⟩ : Date) := by
  exact ⟨rfl, rfl, rfl⟩

/-- Claim C5: `implied_duration` yields one day when the day or weekday
field is present, else one month when the month field is present, else
one year when the year field is present, else none — in exactly that
priority order. -/
theorem claim_c5 (s : date_specifier_t) :
    ((s.day.isSome = true ∨ s.wday.isSome = true) →
        s.implied_duration = some ⟨skip_quantum_t.DAYS, 1⟩) ∧
    (s.day = none → s.wday = none → s.month.isSome = true →
        s.implied_duration = some ⟨skip_quantum_t.MONTHS, 1⟩) ∧
    (s.day = none → s.wday = none → s.month = none → s.year.isSome = true →
        s.implied_duration = some ⟨skip_quantum_t.YEARS, 1⟩) ∧
    (s.day = none → s.wday = none → s.month = none → s.year = none →
        s.implied_duration = none) := by
  rcases s with ⟨yy, mm, da, wd⟩
  dsimp only
  cases da <;> cases wd <;> cases mm <;> cases yy <;>
    simp [date_specifier_t.implied_duration]

/-- Witness for claim C5: a year-and-month specifier implies one month. -/
theorem claim_c5_witness :
    date_specifier_t.implied_duration ⟨some 2021, some 3, none, none⟩ =
      some ⟨skip_quantum_t.MONTHS, 1⟩ :=
  (claim_c5 ⟨some 2021, some 3, none, none⟩).2.1 rfl rfl rfl

/-- Claim C6: `date_range_t::end` is none without an upper specifier;
with one it forwards to the upper specifier's end when the upper bound
is inclusive and to its begin when it is exclusive. -/
theorem claim_c6 (r : date_range_t) (y : Int) :
    (r.range_end = none → r.end_ y = none) ∧
    ∀ u, r.range_end = some u →
      (r.end_inclusive = true → r.end_ y = u.end_ y) ∧
      (r.end_inclusive = false → r.end_ y = some (u.begin y)) := by
  rcases r with ⟨rb, re, inc⟩
  dsimp only
  constructor
  · intro h
    subst h
    rfl
  · intro u h
    subst h
    cases inc
    · exact ⟨fun h2 => by simp at h2, fun _ => rfl⟩
    · exact ⟨fun _ => rfl, fun h2 => by simp at h2⟩

/-- Witness for claim C6, the spec's Scenario C: the exclusive range
from year 2020 to year 2021 ends at the begin of the upper specifier
(2021-01-01). -/
theorem claim_c6_witness :
    date_range_t.end_
        (date_range_t.public_mk (some ⟨some 2020, none, none, none⟩)
          (some ⟨some 2021, none, none, none⟩)) 0 =
      some (date_specifier_t.begin ⟨some 2021, none, none, none⟩ 0) ∧
    date_specifier_t.begin ⟨some 2021, none, none, none⟩ 0 = ⟨2021, 1, 1⟩ :=
  ⟨((claim_c6 (date_range_t.public_mk (some ⟨some 2020, none, none, none⟩)
      (some ⟨some 2021, none, none, none⟩)) 0).2
      ⟨some 2021, none, none, none⟩ rfl).2 rfl, by decide⟩

/-- Claim C7: `date_specifier_or_range_t` forwards begin, end and
containment to the held alternative, and a held specifier behaves
exactly like a range whose lower and upper bounds are that specifier
with an inclusive upper bound. -/
theorem claim_c7 (s : date_specifier_t) (y : Int) (d : Date) :
    (date_specifier_or_range_t.spec s).begin y =
        date_range_t.begin ⟨some s, some s, true⟩ y ∧
    (date_specifier_or_range_t.spec s).end_ y =
        date_range_t.end_ ⟨some s, some s, true⟩ y ∧
    (date_specifier_or_range_t.spec s).is_within d y =
        date_range_t.is_within ⟨some s, some s, true⟩ d y ∧
    ∀ r : date_range_t,
      (date_specifier_or_range_t.range r).begin y = r.begin y ∧
      (date_specifier_or_range_t.range r).end_ y = r.end_ y ∧
      (date_specifier_or_range_t.range r).is_within d y = r.is_within d y := by
  refine ⟨rfl, rfl, ?_, fun r => ⟨rfl, rfl, rfl⟩⟩
  simp only [date_specifier_or_range_t.is_within, date_specifier_t.is_within,
    date_range_t.is_within, date_range_t.begin, date_range_t.end_, if_true]

/-- Claim C9: an interval's read-only begin query returns the resolved
start when set and only falls back to the raw window's begin (or none);
symmetrically the end query returns finish when set, else the window's
end, else none. -/
theorem claim_c9 (i : date_interval_t) (y : Int) :
    (∀ s, i.start = some s → i.begin y = some s) ∧
    (i.start = none →
      i.begin y = (match i.range with
                   | some w => w.begin y
                   | none => none)) ∧
    (∀ f, i.finish = some f → i.end_ y = some f) ∧
    (i.finish = none →
      i.end_ y = (match i.range with
                  | some w => w.end_ y
                  | none => none)) := by
  rcases i with ⟨rng, st, fi, al, nx, du, eod⟩
  dsimp only
  refine ⟨?_, ?_, ?_, ?_⟩
  · intro s h
    subst h
    rfl
  · intro h
    subst h
    rfl
  · intro f h
    subst h
    rfl
  · intro h
    subst h
    rfl

/-- Witness for claim C9: a set start shadows the window. -/
theorem claim_c9_witness :
    date_interval_t.begin
        { date_interval_t.default_mk with
            start := some ⟨2021, 3, 1⟩,
            range := some (date_specifier_or_range_t.spec ⟨some 2020, none, none, none⟩) }
        2021 = some ⟨2021, 3, 1⟩ :=
  (claim_c9 _ 2021).1 ⟨2021, 3, 1⟩ rfl

/-- Claim C10: the public range constructor always initializes the
upper bound as exclusive, so for any such range with an upper
specifier, end equals the upper specifier's begin. -/
theorem claim_c10 (b u : Option date_specifier_t) (y : Int) :
    (date_range_t.public_mk b u).end_inclusive = false ∧
    ∀ s, u = some s → (date_range_t.public_mk b u).end_ y = some (s.begin y) := by
  constructor
  · rfl
  · intro s h
    subst h
    rfl

/-- Witness for claim C10 at a concrete upper specifier. -/
theorem claim_c10_witness :
    (date_range_t.public_mk none (some ⟨some 2021, none, none, none⟩)).end_ 0 =
      some (date_specifier_t.begin ⟨some 2021, none, none, none⟩ 0) :=
  (claim_c10 none (some ⟨some 2021, none, none, none⟩) 0).2
    ⟨some 2021, none, none, none⟩ rfl

/-- Counterexample for claim C8 as stated: the two-argument constructor
accepts any `int`, so a duration with negative length is constructible. -/
theorem claim_c8_counterexample :
    (⟨skip_quantum_t.QUARTERS, -1⟩ : date_duration_t).length < 0 := by decide

/-- Claim C8 (amended): a default-constructed duration has length 0, a
copy preserves the length, and the two-argument constructor yields a
non-negative length exactly when given one — the constructor itself
enforces no sign restriction. -/
theorem claim_c8 :
    date_duration_t.default_mk.length = 0 ∧
    (∀ dur : date_duration_t, (date_duration_t.copy_mk dur).length = dur.length) ∧
    ∀ q : skip_quantum_t, ∀ l : Int, 0 ≤ l → 0 ≤ (date_duration_t.mk q l).length :=
  ⟨rfl, fun _ => rfl, fun _ _ h => h⟩

/-- Witness for claim C8 at a concrete non-negative length. -/
theorem claim_c8_witness : (0 : Int) ≤ (date_duration_t.mk skip_quantum_t.DAYS 5).length :=
  claim_c8.2.2 skip_quantum_t.DAYS 5 (by decide)
